import Mathlib

set_option maxHeartbeats 1000000

/-!
Shallow embedding of the response-formatting module `cloud_api.py` of the
Google Cloud Natural Language plugin, together with proofs of the
properties its specification states.

Conventions of the embedding:

* Python numbers are embedded as rationals.  Every property proved here is
  order-theoretic and exercised on small decimal values, where the rational
  semantics and the float semantics of the source agree.
* A raw Python string fed to the JSON decoder is represented by its decoding:
  `some j` when the string is valid JSON decoding to the value `j`, and
  `none` when the string is not valid JSON.
* Fallible Python code is embedded as `Except PyErr`.
* The helpers the source imports from the repository module
  `plugin_io_utils` (`safe_json_loads`, `generate_unique` and the two
  enumerations) are not part of the sources; each is modelled from the
  spec, as marked in its doc comment.
-/

/-- JSON values, the decoded form of API responses.  Objects carry their
fields in order, as Python dicts do; numbers are embedded as rationals. -/
inductive Json where
  | null : Json
  | bool (b : Bool) : Json
  | num (q : ℚ) : Json
  | str (s : String) : Json
  | arr (elems : List Json) : Json
  | obj (fields : List (String × Json)) : Json

/-- Python exceptions that the embedded code can raise. -/
inductive PyErr where
  | valueError (msg : String) : PyErr
  | typeError (msg : String) : PyErr
  | attributeError (msg : String) : PyErr
  | keyError (key : String) : PyErr
deriving DecidableEq

/-- One cell of a row.  `raw decoded` is a raw string holding an API
response, represented by its JSON decoding (`none` when the string is not
valid JSON); `val j` is a structured value written by a formatter. -/
inductive Cell where
  | raw (decoded : Option Json) : Cell
  | val (j : Json) : Cell

/-- A row of tabular data: a mapping from column name to cell, in insertion
order, with the unique-key discipline of a Python dict. -/
abbrev Row := List (String × Cell)

/-- Modelled from the spec: the error-handling policy enumeration owned by
the missing `plugin_io_utils` module — log-and-substitute-empty,
raise-and-abort, silently-substitute-empty. -/
inductive ErrorHandlingEnum where
  | LOG : ErrorHandlingEnum
  | FAIL : ErrorHandlingEnum
  | IGNORE : ErrorHandlingEnum
deriving DecidableEq

/-- Modelled from the spec: the output-format enumeration owned by the
missing `plugin_io_utils` module — recognized values SINGLE_COLUMN and
MULTIPLE_COLUMNS. -/
inductive OutputFormatEnum where
  | SINGLE_COLUMN : OutputFormatEnum
  | MULTIPLE_COLUMNS : OutputFormatEnum
deriving DecidableEq

/-- Field lookup in an object field list: first binding wins, as in a
Python dict (whose keys are unique). -/
def fieldGetD (fields : List (String × Json)) (k : String) (d : Json) : Json :=
  match fields with
  | [] => d
  | (k', v) :: rest => if k' = k then v else fieldGetD rest k d

/-- Total version of `dict.get` used in statements: on a non-object it
returns the default (the embedded code itself uses `pyGet`, which raises
there instead). -/
def jsonGetD (j : Json) (k : String) (d : Json) : Json :=
  match j with
  | Json.obj fields => fieldGetD fields k d
  | _ => d

/-- Python `x.get(k, d)`: field lookup on an object, AttributeError on any
other value (lists, strings, numbers and null have no `get`). -/
def pyGet (j : Json) (k : String) (d : Json) : Except PyErr Json :=
  match j with
  | Json.obj fields => Except.ok (fieldGetD fields k d)
  | _ => Except.error (PyErr.attributeError "object has no attribute get")

/-- Python `float(x)` on a decoded JSON value: numbers pass through and
booleans coerce to 0 or 1; anything else raises.  Numeric strings, which
Python would also accept, are outside the response schema and not
modelled. -/
def pyFloat (j : Json) : Except PyErr ℚ :=
  match j with
  | Json.num q => Except.ok q
  | Json.bool b => Except.ok (if b then 1 else 0)
  | _ => Except.error (PyErr.typeError "float argument must be a number")

/-- Python `<` on decoded JSON values, as used by the sort key comparison:
numbers compare with numbers and strings with strings; any other pair —
in particular anything against None — raises TypeError. -/
def pyLt (a b : Json) : Except PyErr Bool :=
  match a, b with
  | Json.num x, Json.num y => Except.ok (decide (x < y))
  | Json.str x, Json.str y => Except.ok (decide (x < y))
  | _, _ => Except.error (PyErr.typeError "unorderable types")

/-- Python `x == n` for a decoded JSON value against a Python string:
equality holds only for an equal string, and is False (never an error) on
any other value. -/
def jsonEqStr (j : Json) (n : String) : Bool :=
  match j with
  | Json.str s => s == n
  | _ => false

/-- Lookup of a key in a row, first binding wins (Python dict lookup). -/
def rowGet (row : Row) (k : String) : Option Cell :=
  match row with
  | [] => none
  | (k', v) :: rest => if k' = k then some v else rowGet rest k

/-- Python `row[k]`: KeyError when the key is absent. -/
def dictGetItem (row : Row) (k : String) : Except PyErr Cell :=
  match rowGet row k with
  | some v => Except.ok v
  | none => Except.error (PyErr.keyError k)

/-- Python `row[k] = v`: replace the value in place when the key is
present, append the binding otherwise. -/
def dictSet (row : Row) (k : String) (v : Cell) : Row :=
  match row with
  | [] => [(k, v)]
  | (k', v') :: rest => if k' = k then (k', v) :: rest else (k', v') :: dictSet rest k v

/-- Python `row.keys()`. -/
def rowKeys (row : Row) : List String :=
  row.map Prod.fst

/-- Concatenation of a list of strings, used by the dedup scheme of
`generate_unique`. -/
def concatAll (l : List String) : String :=
  match l with
  | [] => ""
  | s :: rest => s ++ concatAll rest

/-- Modelled from the spec: `generate_unique` from the missing
`plugin_io_utils` module derives a new column name from the fixed prefix
plus a semantic suffix and deduplicates it against the existing key names,
so that an added column never collides with a pre-existing key.  The
dedup scheme appends the concatenation of all existing names (making the
result strictly longer than every existing name) followed by the semantic
suffix again. -/
def generate_unique (name : String) (existing_names : List String) (pfx : String) : String :=
  if pfx ++ "_" ++ name ∈ existing_names then
    pfx ++ "_" ++ name ++ "_" ++ concatAll existing_names ++ "_" ++ name
  else pfx ++ "_" ++ name

/-- Modelled from the spec: `safe_json_loads` from the missing
`plugin_io_utils` module.  Valid JSON is returned decoded; malformed input
is routed through the error-handling policy — the raise-and-abort policy
raises, and both other policies substitute an empty object so that the
formatters fall back to their sentinel values.  A non-string cell violates
the input-column contract and is routed through the policy like malformed
input. -/
def safe_json_loads (raw : Cell) (error_handling : ErrorHandlingEnum) : Except PyErr Json :=
  match raw with
  | Cell.raw (some j) => Except.ok j
  | _ =>
      match error_handling with
      | ErrorHandlingEnum.FAIL => Except.error (PyErr.valueError "API response is not valid JSON")
      | _ => Except.ok (Json.obj [])

/-- Modelled from the spec: the entity-type enumeration is sourced at call
time from the external client library schema metadata
(`language.enums.Entity.Type.__members__`); held here as a static
enumeration of the supported entity-type labels, as the design notes
prescribe for a reimplementation. -/
def ENTITY_TYPES : List String :=
  ["UNKNOWN", "PERSON", "LOCATION", "ORGANIZATION", "EVENT",
   "WORK_OF_ART", "CONSUMER_GOOD", "OTHER", "PHONE_NUMBER",
   "ADDRESS", "DATE", "NUMBER", "PRICE"]

/-- Return type of `scale_sentiment_score` (`Union[AnyStr, float]` in the
source): either a categorical label or a number. -/
inductive ScaleResult where
  | label (s : String) : ScaleResult
  | score (q : ℚ) : ScaleResult
deriving DecidableEq

/-- Conversion of a scaling result to the JSON-like value stored in the
row (Python stores the string or the float itself). -/
def ScaleResult.toJson (r : ScaleResult) : Json :=
  match r with
  | ScaleResult.label s => Json.str s
  | ScaleResult.score q => Json.num q

/-- Straight translation of `scale_sentiment_score` from `cloud_api.py`
(the source default for `scale` is "ternary"; defaults are passed
explicitly here). -/
def scale_sentiment_score (score : ℚ) (scale : String) : ScaleResult :=
  if scale = "binary" then
    if score < 0 then ScaleResult.label "negative" else ScaleResult.label "positive"
  else if scale = "ternary" then
    if score < -0.33 then ScaleResult.label "negative"
    else if score > 0.33 then ScaleResult.label "positive"
    else ScaleResult.label "neutral"
  else if scale = "quinary" then
    if score < -0.66 then ScaleResult.label "highly negative"
    else if score < -0.33 then ScaleResult.label "negative"
    else if score < 0.33 then ScaleResult.label "neutral"
    else if score < 0.66 then ScaleResult.label "positive"
    else ScaleResult.label "highly positive"
  else if scale = "rescale_zero_to_one" then
    ScaleResult.score ((score + 1) / 2)
  else
    ScaleResult.score score

/-- The per-mode scaling table exactly as the spec states it: binary and
ternary by their stated comparisons, quinary as five buckets delimited by
-0.66, -0.33, 0.33 and 0.66 with every boundary value in the upper
bucket, rescale_zero_to_one as (score+1)/2, and any other mode passing
the score through as a float. -/
def spec_scale_table (score : ℚ) (mode : String) : ScaleResult :=
  if mode = "binary" then
    if score < 0 then ScaleResult.label "negative" else ScaleResult.label "positive"
  else if mode = "ternary" then
    if score < -0.33 then ScaleResult.label "negative"
    else if 0.33 < score then ScaleResult.label "positive"
    else ScaleResult.label "neutral"
  else if mode = "quinary" then
    if score < -0.66 then ScaleResult.label "highly negative"
    else if -0.66 ≤ score ∧ score < -0.33 then ScaleResult.label "negative"
    else if -0.33 ≤ score ∧ score < 0.33 then ScaleResult.label "neutral"
    else if 0.33 ≤ score ∧ score < 0.66 then ScaleResult.label "positive"
    else ScaleResult.label "highly positive"
  else if mode = "rescale_zero_to_one" then
    ScaleResult.score ((score + 1) / 2)
  else
    ScaleResult.score score

/-- Handle to the external API client produced by `get_client`: either the
ambient-credential client or one built from a decoded service-account
key.  The external construction (`service_account.Credentials` and
`LanguageServiceClient`) is abstracted as a constructor. -/
inductive Client where
  | defaultClient : Client
  | credentialedClient (info : Json) : Client

/-- Straight translation of `get_client` from `cloud_api.py`.  The
optional raw key string is represented by its JSON decoding (`none` for
Python None, `some none` for a string that is not valid JSON). -/
def get_client (gcp_service_account_key : Option (Option Json)) : Except PyErr Client :=
  match gcp_service_account_key with
  | none => Except.ok Client.defaultClient
  | some none => Except.error (PyErr.valueError "GCP service account key is not valid JSON.")
  | some (some credentials) => Except.ok (Client.credentialedClient credentials)

/-- Translation of the list comprehension in
`format_named_entity_recognition`: the names of the entities whose type
matches `n`, collected left to right; `get` on a non-object element
raises. -/
def collectNames (n : String) (entities : List Json) : Except PyErr (List Json) :=
  match entities with
  | [] => Except.ok []
  | e :: rest =>
      match pyGet e "type" (Json.str "") with
      | Except.error err => Except.error err
      | Except.ok t =>
          if jsonEqStr t n then
            match pyGet e "name" Json.null with
            | Except.error err => Except.error err
            | Except.ok name =>
                match collectNames n rest with
                | Except.error err => Except.error err
                | Except.ok names => Except.ok (name :: names)
          else collectNames n rest

/-- Translation of the `for n in available_entity_types` loop of
`format_named_entity_recognition`: for each entity type a fresh column is
generated against the current keys and filled with the matching names,
then overwritten with the empty string when no entity matched. -/
def nerLoop (entities : List Json) (pfx : String) (types : List String) (row : Row) :
    Except PyErr Row :=
  match types with
  | [] => Except.ok row
  | n :: rest =>
      let entity_type_column := generate_unique ("entity_type_" ++ n.toLower) (rowKeys row) pfx
      match collectNames n entities with
      | Except.error err => Except.error err
      | Except.ok names =>
          let row1 := dictSet row entity_type_column (Cell.val (Json.arr names))
          let row2 :=
            if names.length = 0 then dictSet row1 entity_type_column (Cell.val (Json.str ""))
            else row1
          nerLoop entities pfx rest row2

/-- Straight translation of `format_named_entity_recognition` from
`cloud_api.py` (source defaults: MULTIPLE_COLUMNS, prefix "ner_api",
error handling LOG; defaults are passed explicitly here).  A non-list
value under the "entities" key makes the Python loop iterate a non-list,
which fails attribute lookup on its elements; this is collapsed to an
error. -/
def format_named_entity_recognition (row : Row) (response_column : String)
    (output_format : OutputFormatEnum) (pfx : String)
    (error_handling : ErrorHandlingEnum) : Except PyErr Row :=
  match dictGetItem row response_column with
  | Except.error err => Except.error err
  | Except.ok raw_response =>
      match safe_json_loads raw_response error_handling with
      | Except.error err => Except.error err
      | Except.ok response =>
          match output_format with
          | OutputFormatEnum.SINGLE_COLUMN =>
              let entity_column := generate_unique "entities" (rowKeys row) pfx
              match pyGet response "entities" (Json.str "") with
              | Except.error err => Except.error err
              | Except.ok v => Except.ok (dictSet row entity_column (Cell.val v))
          | OutputFormatEnum.MULTIPLE_COLUMNS =>
              match pyGet response "entities" (Json.arr []) with
              | Except.error err => Except.error err
              | Except.ok (Json.arr entities) => nerLoop entities pfx ENTITY_TYPES row
              | Except.ok _ => Except.error (PyErr.typeError "entities value is not a list")

/-- Straight translation of `format_sentiment_analysis` from
`cloud_api.py` (source defaults: scale "ternary", prefix "sentiment_api",
error handling LOG; defaults are passed explicitly here).  The three
column names are generated up front against the original keys, exactly as
in the source. -/
def format_sentiment_analysis (row : Row) (response_column : String)
    (sentiment_scale : String) (pfx : String)
    (error_handling : ErrorHandlingEnum) : Except PyErr Row :=
  match dictGetItem row response_column with
  | Except.error err => Except.error err
  | Except.ok raw_response =>
      match safe_json_loads raw_response error_handling with
      | Except.error err => Except.error err
      | Except.ok response =>
          let sentiment_score_column := generate_unique "score" (rowKeys row) pfx
          let sentiment_score_scaled_column := generate_unique "score_scaled" (rowKeys row) pfx
          let sentiment_magnitude_column := generate_unique "magnitude" (rowKeys row) pfx
          match pyGet response "documentSentiment" (Json.obj []) with
          | Except.error err => Except.error err
          | Except.ok sentiment =>
              match pyGet sentiment "score" Json.null with
              | Except.error err => Except.error err
              | Except.ok sentiment_score =>
                  match pyGet sentiment "magnitude" Json.null with
                  | Except.error err => Except.error err
                  | Except.ok magnitude_score =>
                      let step1 : Except PyErr Row :=
                        match sentiment_score with
                        | Json.null =>
                            Except.ok (dictSet (dictSet row sentiment_score_column (Cell.val Json.null))
                              sentiment_score_scaled_column (Cell.val Json.null))
                        | s =>
                            match pyFloat s with
                            | Except.error err => Except.error err
                            | Except.ok q =>
                                Except.ok (dictSet (dictSet row sentiment_score_column (Cell.val (Json.num q)))
                                  sentiment_score_scaled_column
                                  (Cell.val (scale_sentiment_score q sentiment_scale).toJson))
                      match step1 with
                      | Except.error err => Except.error err
                      | Except.ok row1 =>
                          match magnitude_score with
                          | Json.null =>
                              Except.ok (dictSet row1 sentiment_magnitude_column (Cell.val Json.null))
                          | m =>
                              match pyFloat m with
                              | Except.error err => Except.error err
                              | Except.ok q =>
                                  Except.ok (dictSet row1 sentiment_magnitude_column (Cell.val (Json.num q)))

/-- Key extraction pass of `sorted(..., key=lambda x: x.get("confidence"))`:
Python computes the key of every element, left to right, before any
comparison. -/
def keyCats (cats : List Json) : Except PyErr (List (Json × Json)) :=
  match cats with
  | [] => Except.ok []
  | c :: rest =>
      match pyGet c "confidence" Json.null with
      | Except.error err => Except.error err
      | Except.ok k =>
          match keyCats rest with
          | Except.error err => Except.error err
          | Except.ok keyed => Except.ok ((k, c) :: keyed)

/-- Stable descending insertion on keyed elements: the inserted element
goes before the first element whose key is not strictly greater, so a
later element never overtakes an equal-keyed earlier one.  Each key
comparison is a Python `<` and can raise. -/
def insertKeyedDesc (x : Json × Json) (l : List (Json × Json)) :
    Except PyErr (List (Json × Json)) :=
  match l with
  | [] => Except.ok [x]
  | y :: rest =>
      match pyLt x.1 y.1 with
      | Except.error err => Except.error err
      | Except.ok b =>
          if b then
            match insertKeyedDesc x rest with
            | Except.error err => Except.error err
            | Except.ok l' => Except.ok (y :: l')
          else Except.ok (x :: y :: rest)

/-- Stable descending sort on keyed elements: earlier elements are
inserted into the sorted tail.  Any sort Python would run here is stable
and raises exactly when a comparison raises; a list with a None key of
length at least two always reaches such a comparison. -/
def sortKeyedDesc (l : List (Json × Json)) : Except PyErr (List (Json × Json)) :=
  match l with
  | [] => Except.ok []
  | x :: rest =>
      match sortKeyedDesc rest with
      | Except.error err => Except.error err
      | Except.ok sorted => insertKeyedDesc x sorted

/-- Translation of
`sorted(categories, key=lambda x: x.get("confidence"), reverse=True)`. -/
def sortedByConfidenceDesc (cats : List Json) : Except PyErr (List Json) :=
  match keyCats cats with
  | Except.error err => Except.error err
  | Except.ok keyed =>
      match sortKeyedDesc keyed with
      | Except.error err => Except.error err
      | Except.ok sorted => Except.ok (sorted.map Prod.snd)

/-- Translation of the `for n in range(num_categories)` loop of
`format_text_classification`: both column names of a pair are generated
against the keys as of the start of the iteration, then either the n-th
sorted category or the sentinel pair is written. -/
def classLoop (cats : List Json) (pfx : String) (ns : List Nat) (row : Row) :
    Except PyErr Row :=
  match ns with
  | [] => Except.ok row
  | n :: rest =>
      let category_column := generate_unique ("category_" ++ toString n) (rowKeys row) pfx
      let confidence_column :=
        generate_unique ("category_" ++ toString n ++ "_confidence") (rowKeys row) pfx
      if h : n < cats.length then
        match pyGet (cats.get ⟨n, h⟩) "name" (Json.str "") with
        | Except.error err => Except.error err
        | Except.ok name =>
            let row1 := dictSet row category_column (Cell.val name)
            match pyGet (cats.get ⟨n, h⟩) "confidence" Json.null with
            | Except.error err => Except.error err
            | Except.ok conf =>
                classLoop cats pfx rest (dictSet row1 confidence_column (Cell.val conf))
      else
        let row1 := dictSet row category_column (Cell.val (Json.str ""))
        classLoop cats pfx rest (dictSet row1 confidence_column (Cell.val Json.null))

/-- Straight translation of `format_text_classification` from
`cloud_api.py` (source defaults: MULTIPLE_COLUMNS, 3 categories, prefix
"classification_api", error handling LOG; defaults are passed explicitly
here).  A non-list value under the "categories" key is collapsed to an
error, as for entities. -/
def format_text_classification (row : Row) (response_column : String)
    (output_format : OutputFormatEnum) (num_categories : Nat) (pfx : String)
    (error_handling : ErrorHandlingEnum) : Except PyErr Row :=
  match dictGetItem row response_column with
  | Except.error err => Except.error err
  | Except.ok raw_response =>
      match safe_json_loads raw_response error_handling with
      | Except.error err => Except.error err
      | Except.ok response =>
          match output_format with
          | OutputFormatEnum.SINGLE_COLUMN =>
              let classification_column := generate_unique "categories" (rowKeys row) pfx
              match pyGet response "categories" (Json.str "") with
              | Except.error err => Except.error err
              | Except.ok v => Except.ok (dictSet row classification_column (Cell.val v))
          | OutputFormatEnum.MULTIPLE_COLUMNS =>
              match pyGet response "categories" (Json.arr []) with
              | Except.error err => Except.error err
              | Except.ok (Json.arr cats) =>
                  match sortedByConfidenceDesc cats with
                  | Except.error err => Except.error err
                  | Except.ok sorted => classLoop sorted pfx (List.range num_categories) row
              | Except.ok _ => Except.error (PyErr.typeError "categories value is not a list")

/-- Whether a decoded JSON value is an object (a Python dict). -/
def Json.isObj (j : Json) : Bool :=
  match j with
  | Json.obj _ => true
  | _ => false

/-- Spec-side description of one entity-type column content: the
subsequence, in input order, of the name values of the entities whose
type equals the enumeration name. -/
def entity_names_of_type (entities : List Json) (n : String) : List Json :=
  (entities.filter (fun e => jsonEqStr (jsonGetD e "type" (Json.str "")) n)).map
    (fun e => jsonGetD e "name" Json.null)

/-- Spec-side description of the cell written for one entity type: the
matching names as a list, or the empty-string sentinel when no entity
matched. -/
def entity_type_cell (entities : List Json) (n : String) : Cell :=
  let names := entity_names_of_type entities n
  if names.length = 0 then Cell.val (Json.str "") else Cell.val (Json.arr names)

/-- Spec-side numeric confidence of a category object (meaningful when the
confidence field holds a number, which the sorted-output claims assume). -/
def confQ (c : Json) : ℚ :=
  match jsonGetD c "confidence" Json.null with
  | Json.num q => q
  | _ => 0

/-- Whether a category object carries a numeric confidence (the
sorted-output claims assume this of every category). -/
def hasNumConf (c : Json) : Bool :=
  match jsonGetD c "confidence" Json.null with
  | Json.num _ => true
  | _ => false

/-- Spec-side stable descending insertion by numeric confidence: the
element goes before the first element whose confidence is not strictly
greater. -/
def insertCatDesc (x : Json) (l : List Json) : List Json :=
  match l with
  | [] => [x]
  | y :: rest => if confQ x < confQ y then y :: insertCatDesc x rest else x :: y :: rest

/-- Spec-side stable descending sort by numeric confidence: each element
is inserted into the sorted list of the elements after it, so equal
confidences keep their input order. -/
def sortCatsDesc (l : List Json) : List Json :=
  match l with
  | [] => []
  | x :: rest => insertCatDesc x (sortCatsDesc rest)

/-- Spec-side description of the n-th category-name cell: the name of the
n-th sorted category, or the empty-string sentinel past the end. -/
def name_cell (sorted : List Json) (n : Nat) : Cell :=
  if h : n < sorted.length then Cell.val (jsonGetD (sorted.get ⟨n, h⟩) "name" (Json.str ""))
  else Cell.val (Json.str "")

/-- Spec-side description of the n-th category-confidence cell: the
confidence of the n-th sorted category, or the null sentinel past the
end. -/
def conf_cell (sorted : List Json) (n : Nat) : Cell :=
  if h : n < sorted.length then Cell.val (jsonGetD (sorted.get ⟨n, h⟩) "confidence" Json.null)
  else Cell.val Json.null

/-- Spec-side description of the sentiment score column: the numeric
score, or the null sentinel when the field was absent. -/
def score_cell (scoreJ : Json) : Cell :=
  match scoreJ with
  | Json.num q => Cell.val (Json.num q)
  | _ => Cell.val Json.null

/-- Spec-side description of the scaled-score column: the scaled score
when the score field held a number, the null sentinel when it was
absent. -/
def scaled_cell (scoreJ : Json) (mode : String) : Cell :=
  match scoreJ with
  | Json.num q => Cell.val (scale_sentiment_score q mode).toJson
  | _ => Cell.val Json.null

/-- Spec-side description of the magnitude column: the numeric magnitude,
or the null sentinel when the field was absent. -/
def magnitude_cell (magJ : Json) : Cell :=
  match magJ with
  | Json.num q => Cell.val (Json.num q)
  | _ => Cell.val Json.null

/-- Frame property of a formatter run: the output row is the input row
with new bindings appended, every appended key foreign to the input
keys.  Old keys in particular keep their position and value, and nothing
is deleted. -/
def RowExtends (row row' : Row) : Prop :=
  ∃ ext, row' = row ++ ext ∧ ∀ k, k ∈ rowKeys ext → k ∉ rowKeys row

theorem length_le_concatAll (l : List String) (s : String) (hs : s ∈ l) :
    s.length ≤ (concatAll l).length := by
  induction l with
  | nil => cases hs
  | cons t rest ih =>
      rcases List.mem_cons.mp hs with h | h
      · subst h
        simp [concatAll, String.length_append]
      · have := ih h
        simp only [concatAll, String.length_append]
        omega

theorem generate_unique_fresh (name : String) (keys : List String) (pfx : String) :
    generate_unique name keys pfx ∉ keys := by
  intro hcontra
  unfold generate_unique at hcontra
  by_cases hmem : pfx ++ "_" ++ name ∈ keys
  · rw [if_pos hmem] at hcontra
    have hlen := length_le_concatAll keys _ hcontra
    have hJ := length_le_concatAll keys _ hmem
    have hu : "_".length = 1 := rfl
    simp only [String.length_append] at hlen hJ
    omega
  · rw [if_neg hmem] at hcontra
    exact hmem hcontra

theorem generate_unique_ne (n1 n2 : String) (keys : List String) (pfx : String)
    (hne : n1.length ≠ n2.length)
    (h12 : n1.length < 3 * n2.length + 3) (h21 : n2.length < 3 * n1.length + 3) :
    generate_unique n1 keys pfx ≠ generate_unique n2 keys pfx := by
  intro hcontra
  have hu : "_".length = 1 := rfl
  unfold generate_unique at hcontra
  by_cases h1 : pfx ++ "_" ++ n1 ∈ keys <;> by_cases h2 : pfx ++ "_" ++ n2 ∈ keys
  · rw [if_pos h1, if_pos h2] at hcontra
    have hlen := congrArg String.length hcontra
    simp only [String.length_append] at hlen
    omega
  · rw [if_pos h1, if_neg h2] at hcontra
    have hlen := congrArg String.length hcontra
    have hJ := length_le_concatAll keys _ h1
    simp only [String.length_append] at hlen hJ
    omega
  · rw [if_neg h1, if_pos h2] at hcontra
    have hlen := congrArg String.length hcontra
    have hJ := length_le_concatAll keys _ h2
    simp only [String.length_append] at hlen hJ
    omega
  · rw [if_neg h1, if_neg h2] at hcontra
    have hlen := congrArg String.length hcontra
    simp only [String.length_append] at hlen
    omega

theorem rowKeys_cons (k : String) (v : Cell) (rest : Row) :
    rowKeys ((k, v) :: rest) = k :: rowKeys rest := rfl

theorem rowKeys_append (r1 r2 : Row) : rowKeys (r1 ++ r2) = rowKeys r1 ++ rowKeys r2 := by
  simp [rowKeys]

theorem dictSet_fresh (row : Row) (k : String) (v : Cell) (h : k ∉ rowKeys row) :
    dictSet row k v = row ++ [(k, v)] := by
  induction row with
  | nil => rfl
  | cons p rest ih =>
      obtain ⟨k', v'⟩ := p
      simp only [rowKeys_cons, List.mem_cons] at h
      push_neg at h
      simp [dictSet, Ne.symm h.1, ih h.2]

theorem dictSet_append_left (r1 r2 : Row) (k : String) (v : Cell) (h : k ∉ rowKeys r1) :
    dictSet (r1 ++ r2) k v = r1 ++ dictSet r2 k v := by
  induction r1 with
  | nil => rfl
  | cons p rest ih =>
      obtain ⟨k', v'⟩ := p
      simp only [rowKeys_cons, List.mem_cons] at h
      push_neg at h
      simp [dictSet, Ne.symm h.1, ih h.2]

theorem mem_rowKeys_dictSet (row : Row) (k k' : String) (v : Cell)
    (h : k' ∈ rowKeys (dictSet row k v)) : k' ∈ rowKeys row ∨ k' = k := by
  induction row with
  | nil =>
      right
      simpa [rowKeys, dictSet] using h
  | cons p rest ih =>
      obtain ⟨k0, v0⟩ := p
      by_cases hk : k0 = k
      · rw [dictSet, if_pos hk] at h
        rw [rowKeys_cons, List.mem_cons] at h
        rcases h with h | h
        · exact Or.inl (by rw [rowKeys_cons, List.mem_cons]; exact Or.inl h)
        · exact Or.inl (by rw [rowKeys_cons, List.mem_cons]; exact Or.inr h)
      · rw [dictSet, if_neg hk] at h
        rw [rowKeys_cons, List.mem_cons] at h
        rcases h with h | h
        · exact Or.inl (by rw [rowKeys_cons, List.mem_cons]; exact Or.inl h)
        · rcases ih h with h' | h'
          · exact Or.inl (by rw [rowKeys_cons, List.mem_cons]; exact Or.inr h')
          · exact Or.inr h'

theorem rowGet_append_left (r1 r2 : Row) (k : String) (v : Cell)
    (h : rowGet r1 k = some v) : rowGet (r1 ++ r2) k = some v := by
  induction r1 with
  | nil => cases h
  | cons p rest ih =>
      obtain ⟨k', v'⟩ := p
      by_cases hk : k' = k
      · simpa [rowGet, hk] using h
      · simp only [rowGet, if_neg hk] at h
        simpa [rowGet, hk] using ih h

theorem RowExtends.rfl (row : Row) : RowExtends row row :=
  ⟨[], by simp, by simp [rowKeys]⟩

theorem RowExtends.dictSet_step (row row1 : Row) (k : String) (v : Cell)
    (hext : RowExtends row row1) (hk : k ∉ rowKeys row) :
    RowExtends row (dictSet row1 k v) := by
  obtain ⟨ext, rfl, hfresh⟩ := hext
  refine ⟨dictSet ext k v, dictSet_append_left row ext k v hk, ?_⟩
  intro k' hk'
  rcases mem_rowKeys_dictSet ext k k' v hk' with h | h
  · exact hfresh k' h
  · subst h
    exact hk

theorem RowExtends.rowGet_preserved (row row' : Row) (k : String) (v : Cell)
    (hext : RowExtends row row') (h : rowGet row k = some v) : rowGet row' k = some v := by
  obtain ⟨ext, rfl, -⟩ := hext
  exact rowGet_append_left row ext k v h

theorem collectNames_eq (n : String) (entities : List Json)
    (h : ∀ e ∈ entities, e.isObj = true) :
    collectNames n entities = Except.ok (entity_names_of_type entities n) := by
  induction entities with
  | nil => rfl
  | cons e rest ih =>
      have he : e.isObj = true := h e (List.mem_cons_self e rest)
      have hrest : ∀ x ∈ rest, x.isObj = true := fun x hx => h x (List.mem_cons_of_mem e hx)
      cases e with
      | null => simp [Json.isObj] at he
      | bool b => simp [Json.isObj] at he
      | num q => simp [Json.isObj] at he
      | str s => simp [Json.isObj] at he
      | arr l => simp [Json.isObj] at he
      | obj fields =>
          by_cases ht : jsonEqStr (fieldGetD fields "type" (Json.str "")) n = true
          · simp [collectNames, pyGet, ih hrest, entity_names_of_type, List.filter_cons,
              jsonGetD, ht]
          · simp only [Bool.not_eq_true] at ht
            simp [collectNames, pyGet, ih hrest, entity_names_of_type, List.filter_cons,
              jsonGetD, ht]

theorem nerLoop_shape (entities : List Json) (pfx : String)
    (hobj : ∀ e ∈ entities, e.isObj = true) :
    ∀ (types : List String) (row : Row),
      ∃ ext, nerLoop entities pfx types row = Except.ok (row ++ ext) ∧
        List.map Prod.snd ext = types.map (entity_type_cell entities) ∧
        ∀ k, k ∈ rowKeys ext → k ∉ rowKeys row := by
  intro types
  induction types with
  | nil =>
      intro row
      exact ⟨[], by simp [nerLoop], by simp, by simp [rowKeys]⟩
  | cons n rest ih =>
      intro row
      have hfresh : generate_unique ("entity_type_" ++ n.toLower) (rowKeys row) pfx ∉
          rowKeys row := generate_unique_fresh _ _ _
      set col := generate_unique ("entity_type_" ++ n.toLower) (rowKeys row) pfx with hcol
      set names := entity_names_of_type entities n with hnames
      have hrow2 :
          (if names.length = 0 then
              dictSet (dictSet row col (Cell.val (Json.arr names))) col (Cell.val (Json.str ""))
            else dictSet row col (Cell.val (Json.arr names))) =
            row ++ [(col, entity_type_cell entities n)] := by
        by_cases hlen : names.length = 0
        · rw [if_pos hlen]
          rw [dictSet_fresh row col _ hfresh]
          rw [dictSet_append_left row _ col _ hfresh]
          simp [dictSet, entity_type_cell, ← hnames, hlen]
        · rw [if_neg hlen]
          rw [dictSet_fresh row col _ hfresh]
          simp [entity_type_cell, ← hnames, hlen]
      obtain ⟨ext', hloop, hsnd, hkeys⟩ := ih (row ++ [(col, entity_type_cell entities n)])
      refine ⟨(col, entity_type_cell entities n) :: ext', ?_, ?_, ?_⟩
      · simp only [nerLoop, collectNames_eq n entities hobj, ← hcol]
        rw [hrow2, hloop]
        simp
      · simp [hsnd]
      · intro k hk
        rw [rowKeys_cons, List.mem_cons] at hk
        rcases hk with hk | hk
        · subst hk
          exact hfresh
        · have := hkeys k hk
          rw [rowKeys_append] at this
          intro hcontra
          exact this (by simp [hcontra])

theorem RowExtends.trans (r r1 r2 : Row) (h1 : RowExtends r r1) (h2 : RowExtends r1 r2) :
    RowExtends r r2 := by
  obtain ⟨e1, rfl, hk1⟩ := h1
  obtain ⟨e2, rfl, hk2⟩ := h2
  refine ⟨e1 ++ e2, by simp, ?_⟩
  intro k hk
  rw [rowKeys_append, List.mem_append] at hk
  rcases hk with hk | hk
  · exact hk1 k hk
  · have := hk2 k hk
    rw [rowKeys_append] at this
    intro hcontra
    exact this (by simp [hcontra])

theorem pyGet_ok (j : Json) (k : String) (d : Json) (h : j.isObj = true) :
    pyGet j k d = Except.ok (jsonGetD j k d) := by
  cases j <;> first | rfl | simp [Json.isObj] at h

theorem nerLoop_extends (entities : List Json) (pfx : String) :
    ∀ (types : List String) (row row' : Row),
      nerLoop entities pfx types row = Except.ok row' → RowExtends row row' := by
  intro types
  induction types with
  | nil =>
      intro row row' h
      simp only [nerLoop, Except.ok.injEq] at h
      subst h
      exact RowExtends.rfl row
  | cons n rest ih =>
      intro row row' h
      simp only [nerLoop] at h
      cases hc : collectNames n entities with
      | error err => rw [hc] at h; cases h
      | ok names =>
          rw [hc] at h
          have hfresh : generate_unique ("entity_type_" ++ n.toLower) (rowKeys row) pfx ∉
              rowKeys row := generate_unique_fresh _ _ _
          set col := generate_unique ("entity_type_" ++ n.toLower) (rowKeys row) pfx with hcol
          set row2 :=
            if names.length = 0 then
              dictSet (dictSet row col (Cell.val (Json.arr names))) col (Cell.val (Json.str ""))
            else dictSet row col (Cell.val (Json.arr names)) with hrow2
          have hext2 : RowExtends row row2 := by
            rw [hrow2]
            by_cases hlen : names.length = 0
            · rw [if_pos hlen]
              exact RowExtends.dictSet_step row _ col _
                (RowExtends.dictSet_step row row col _ (RowExtends.rfl row) hfresh) hfresh
            · rw [if_neg hlen]
              exact RowExtends.dictSet_step row row col _ (RowExtends.rfl row) hfresh
          exact RowExtends.trans row row2 row' hext2 (ih row2 row' h)

theorem classLoop_shape (cats : List Json) (pfx : String)
    (hobj : ∀ c ∈ cats, c.isObj = true) :
    ∀ (ns : List Nat) (row : Row),
      ∃ ext, classLoop cats pfx ns row = Except.ok (row ++ ext) ∧
        List.map Prod.snd ext = ns.flatMap (fun n => [name_cell cats n, conf_cell cats n]) ∧
        ∀ k, k ∈ rowKeys ext → k ∉ rowKeys row := by
  intro ns
  induction ns with
  | nil =>
      intro row
      exact ⟨[], by simp [classLoop], by simp, by simp [rowKeys]⟩
  | cons n rest ih =>
      intro row
      have hfresh1 : generate_unique ("category_" ++ toString n) (rowKeys row) pfx ∉
          rowKeys row := generate_unique_fresh _ _ _
      have hfresh2 :
          generate_unique ("category_" ++ toString n ++ "_confidence") (rowKeys row) pfx ∉
            rowKeys row := generate_unique_fresh _ _ _
      have hl1 : ("category_" ++ toString n).length = 9 + (toString n).length := by
        have h9 : "category_".length = 9 := rfl
        simp [String.length_append, h9]
      have hl2 : ("category_" ++ toString n ++ "_confidence").length =
          20 + (toString n).length := by
        have h9 : "category_".length = 9 := rfl
        have h11 : "_confidence".length = 11 := rfl
        simp only [String.length_append, h9, h11]
        omega
      have hne : generate_unique ("category_" ++ toString n) (rowKeys row) pfx ≠
          generate_unique ("category_" ++ toString n ++ "_confidence") (rowKeys row) pfx :=
        generate_unique_ne _ _ _ _ (by omega) (by omega) (by omega)
      set cat_col := generate_unique ("category_" ++ toString n) (rowKeys row) pfx with hcat
      set conf_col :=
        generate_unique ("category_" ++ toString n ++ "_confidence") (rowKeys row) pfx with hconf
      have hstep : ∀ v1 v2 : Cell, dictSet (dictSet row cat_col v1) conf_col v2 =
          row ++ [(cat_col, v1), (conf_col, v2)] := by
        intro v1 v2
        rw [dictSet_fresh row cat_col v1 hfresh1]
        rw [dictSet_append_left row _ conf_col v2 hfresh2]
        simp [dictSet, hne]
      have hkeystep : ∀ k, k ∈ rowKeys [(cat_col, name_cell cats n), (conf_col, conf_cell cats n)] →
          k ∉ rowKeys row := by
        intro k hk
        rcases (by simpa [rowKeys] using hk : k = cat_col ∨ k = conf_col) with hk' | hk' <;>
          subst hk'
        · exact hfresh1
        · exact hfresh2
      by_cases h : n < cats.length
      · have hc : (cats.get ⟨n, h⟩).isObj = true := hobj _ (cats.get_mem n h)
        have hn : Cell.val (jsonGetD (cats.get ⟨n, h⟩) "name" (Json.str "")) =
            name_cell cats n := by rw [name_cell, dif_pos h]
        have hcf : Cell.val (jsonGetD (cats.get ⟨n, h⟩) "confidence" Json.null) =
            conf_cell cats n := by rw [conf_cell, dif_pos h]
        obtain ⟨ext', hloop, hsnd, hkeys⟩ :=
          ih (row ++ [(cat_col, name_cell cats n), (conf_col, conf_cell cats n)])
        refine ⟨(cat_col, name_cell cats n) :: (conf_col, conf_cell cats n) :: ext', ?_, ?_, ?_⟩
        · simp only [classLoop, ← hcat, ← hconf]
          rw [dif_pos h]
          simp only [pyGet_ok _ _ _ hc]
          rw [hn, hcf, hstep, hloop]
          simp
        · simp only [List.map_cons, hsnd, List.flatMap_cons, List.cons_append, List.nil_append]
        · intro k hk
          rw [rowKeys_cons, List.mem_cons] at hk
          rcases hk with hk | hk
          · subst hk; exact hfresh1
          · rw [rowKeys_cons, List.mem_cons] at hk
            rcases hk with hk | hk
            · subst hk; exact hfresh2
            · have := hkeys k hk
              rw [rowKeys_append] at this
              intro hcontra
              exact this (by simp [hcontra])
      · have hn : name_cell cats n = Cell.val (Json.str "") := by rw [name_cell, dif_neg h]
        have hcf : conf_cell cats n = Cell.val Json.null := by rw [conf_cell, dif_neg h]
        obtain ⟨ext', hloop, hsnd, hkeys⟩ :=
          ih (row ++ [(cat_col, name_cell cats n), (conf_col, conf_cell cats n)])
        refine ⟨(cat_col, name_cell cats n) :: (conf_col, conf_cell cats n) :: ext', ?_, ?_, ?_⟩
        · simp only [classLoop, ← hcat, ← hconf]
          rw [dif_neg h]
          rw [hn, hcf] at hloop
          rw [hn, hcf, hstep, hloop]
          simp
        · simp only [List.map_cons, hsnd, List.flatMap_cons, List.cons_append, List.nil_append]
        · intro k hk
          rw [rowKeys_cons, List.mem_cons] at hk
          rcases hk with hk | hk
          · subst hk; exact hfresh1
          · rw [rowKeys_cons, List.mem_cons] at hk
            rcases hk with hk | hk
            · subst hk; exact hfresh2
            · have := hkeys k hk
              rw [rowKeys_append] at this
              intro hcontra
              exact this (by simp [hcontra])

theorem classLoop_extends (cats : List Json) (pfx : String) :
    ∀ (ns : List Nat) (row row' : Row),
      classLoop cats pfx ns row = Except.ok row' → RowExtends row row' := by
  intro ns
  induction ns with
  | nil =>
      intro row row' h
      simp only [classLoop, Except.ok.injEq] at h
      subst h
      exact RowExtends.rfl row
  | cons n rest ih =>
      intro row row' h
      simp only [classLoop] at h
      have hfresh1 : generate_unique ("category_" ++ toString n) (rowKeys row) pfx ∉
          rowKeys row := generate_unique_fresh _ _ _
      have hfresh2 :
          generate_unique ("category_" ++ toString n ++ "_confidence") (rowKeys row) pfx ∉
            rowKeys row := generate_unique_fresh _ _ _
      by_cases hlt : n < cats.length
      · rw [dif_pos hlt] at h
        cases h1 : pyGet (cats.get ⟨n, hlt⟩) "name" (Json.str "") with
        | error err => rw [h1] at h; cases h
        | ok name =>
            rw [h1] at h
            cases h2 : pyGet (cats.get ⟨n, hlt⟩) "confidence" Json.null with
            | error err => rw [h2] at h; cases h
            | ok conf =>
                rw [h2] at h
                refine RowExtends.trans row _ row' ?_ (ih _ row' h)
                exact RowExtends.dictSet_step row _ _ _
                  (RowExtends.dictSet_step row row _ _ (RowExtends.rfl row) hfresh1) hfresh2
      · rw [dif_neg hlt] at h
        refine RowExtends.trans row _ row' ?_ (ih _ row' h)
        exact RowExtends.dictSet_step row _ _ _
          (RowExtends.dictSet_step row row _ _ (RowExtends.rfl row) hfresh1) hfresh2

theorem insertCatDesc_perm (x : Json) (l : List Json) :
    List.Perm (insertCatDesc x l) (x :: l) := by
  induction l with
  | nil => exact List.Perm.refl _
  | cons y rest ih =>
      by_cases hlt : confQ x < confQ y
      · simp only [insertCatDesc, if_pos hlt]
        exact (ih.cons y).trans (List.Perm.swap x y rest)
      · simp only [insertCatDesc, if_neg hlt]
        exact List.Perm.refl _

theorem sortCatsDesc_perm (l : List Json) : List.Perm (sortCatsDesc l) l := by
  induction l with
  | nil => exact List.Perm.refl _
  | cons x rest ih =>
      exact (insertCatDesc_perm x (sortCatsDesc rest)).trans (ih.cons x)

theorem mem_sortCatsDesc (l : List Json) (z : Json) (h : z ∈ sortCatsDesc l) : z ∈ l :=
  (sortCatsDesc_perm l).mem_iff.mp h

theorem insertCatDesc_pairwise (x : Json) (l : List Json)
    (h : List.Pairwise (fun a b => confQ b ≤ confQ a) l) :
    List.Pairwise (fun a b => confQ b ≤ confQ a) (insertCatDesc x l) := by
  induction l with
  | nil => simp [insertCatDesc]
  | cons y rest ih =>
      rw [List.pairwise_cons] at h
      by_cases hlt : confQ x < confQ y
      · simp only [insertCatDesc, if_pos hlt]
        rw [List.pairwise_cons]
        constructor
        · intro z hz
          rcases List.mem_cons.mp ((insertCatDesc_perm x rest).mem_iff.mp hz) with hz1 | hz1
          · subst hz1
            exact le_of_lt hlt
          · exact h.1 z hz1
        · exact ih h.2
      · simp only [insertCatDesc, if_neg hlt]
        rw [List.pairwise_cons]
        constructor
        · intro z hz
          rcases List.mem_cons.mp hz with hz1 | hz1
          · subst hz1
            exact not_lt.mp hlt
          · exact le_trans (h.1 z hz1) (not_lt.mp hlt)
        · rw [List.pairwise_cons]
          exact h

theorem sortCatsDesc_pairwise (l : List Json) :
    List.Pairwise (fun a b => confQ b ≤ confQ a) (sortCatsDesc l) := by
  induction l with
  | nil => simp [sortCatsDesc]
  | cons x rest ih => exact insertCatDesc_pairwise x (sortCatsDesc rest) ih

theorem insertCatDesc_filter (x : Json) (l : List Json) (q : ℚ)
    (h : List.Pairwise (fun a b => confQ b ≤ confQ a) l) :
    (insertCatDesc x l).filter (fun c => decide (confQ c = q)) =
      if confQ x = q then x :: l.filter (fun c => decide (confQ c = q))
      else l.filter (fun c => decide (confQ c = q)) := by
  induction l with
  | nil =>
      by_cases hq : confQ x = q
      · simp [insertCatDesc, List.filter_cons, hq]
      · simp [insertCatDesc, List.filter_cons, hq]
  | cons y rest ih =>
      rw [List.pairwise_cons] at h
      by_cases hlt : confQ x < confQ y
      · by_cases hq : confQ x = q
        · have hyq : ¬ (confQ y = q) := by
            intro hyq
            rw [hq] at hlt
            rw [hyq] at hlt
            exact absurd hlt (lt_irrefl q)
          rw [hq] at hlt
          simp [insertCatDesc, hlt, List.filter_cons, hyq, hq, ih h.2]
        · simp [insertCatDesc, hlt, List.filter_cons, hq, ih h.2]
      · by_cases hq : confQ x = q
        · rw [hq] at hlt
          simp [insertCatDesc, hlt, List.filter_cons, hq]
        · simp [insertCatDesc, hlt, List.filter_cons, hq]

theorem sortCatsDesc_filter (l : List Json) (q : ℚ) :
    (sortCatsDesc l).filter (fun c => decide (confQ c = q)) =
      l.filter (fun c => decide (confQ c = q)) := by
  induction l with
  | nil => rfl
  | cons x rest ih =>
      have := insertCatDesc_filter x (sortCatsDesc rest) q (sortCatsDesc_pairwise rest)
      rw [sortCatsDesc, this, ih, List.filter_cons]
      by_cases hq : confQ x = q
      · simp [hq]
      · simp [hq]

theorem confQ_spec (c : Json) (h : hasNumConf c = true) :
    jsonGetD c "confidence" Json.null = Json.num (confQ c) := by
  unfold hasNumConf at h
  unfold confQ
  rcases hj : jsonGetD c "confidence" Json.null with _ | b | q | s | l | f
  · rw [hj] at h; simp at h
  · rw [hj] at h; simp at h
  · rfl
  · rw [hj] at h; simp at h
  · rw [hj] at h; simp at h
  · rw [hj] at h; simp at h

theorem keyCats_eq (cats : List Json) (hobj : ∀ c ∈ cats, c.isObj = true) :
    keyCats cats =
      Except.ok (cats.map (fun c => (jsonGetD c "confidence" Json.null, c))) := by
  induction cats with
  | nil => rfl
  | cons c rest ih =>
      have hc : c.isObj = true := hobj c (List.mem_cons_self c rest)
      have hrest : ∀ x ∈ rest, x.isObj = true := fun x hx => hobj x (List.mem_cons_of_mem c hx)
      simp [keyCats, pyGet_ok _ _ _ hc, ih hrest]

theorem insertKeyedDesc_eq (x : Json) (hx : hasNumConf x = true) :
    ∀ (l : List Json), (∀ c ∈ l, hasNumConf c = true) →
      insertKeyedDesc (jsonGetD x "confidence" Json.null, x)
          (l.map (fun c => (jsonGetD c "confidence" Json.null, c))) =
        Except.ok ((insertCatDesc x l).map (fun c => (jsonGetD c "confidence" Json.null, c))) := by
  intro l
  induction l with
  | nil => intro _; rfl
  | cons y rest ih =>
      intro hl
      have hy : hasNumConf y = true := hl y (List.mem_cons_self y rest)
      have hrest : ∀ c ∈ rest, hasNumConf c = true :=
        fun c hc => hl c (List.mem_cons_of_mem y hc)
      have ih2 := ih hrest
      rw [confQ_spec x hx] at ih2
      by_cases hlt : confQ x < confQ y
      · simp [insertKeyedDesc, confQ_spec x hx, confQ_spec y hy, pyLt, hlt,
          ih2, insertCatDesc]
      · simp [insertKeyedDesc, confQ_spec x hx, confQ_spec y hy, pyLt, hlt, insertCatDesc]

theorem sortKeyedDesc_eq (l : List Json) (hl : ∀ c ∈ l, hasNumConf c = true) :
    sortKeyedDesc (l.map (fun c => (jsonGetD c "confidence" Json.null, c))) =
      Except.ok ((sortCatsDesc l).map (fun c => (jsonGetD c "confidence" Json.null, c))) := by
  induction l with
  | nil => rfl
  | cons x rest ih =>
      have hx : hasNumConf x = true := hl x (List.mem_cons_self x rest)
      have hrest : ∀ c ∈ rest, hasNumConf c = true :=
        fun c hc => hl c (List.mem_cons_of_mem x hc)
      have hsorted : ∀ c ∈ sortCatsDesc rest, hasNumConf c = true :=
        fun c hc => hrest c (mem_sortCatsDesc rest c hc)
      simp only [List.map_cons, sortKeyedDesc, ih hrest]
      exact insertKeyedDesc_eq x hx (sortCatsDesc rest) hsorted

theorem sortedByConfidenceDesc_eq (cats : List Json)
    (hobj : ∀ c ∈ cats, c.isObj = true) (hnum : ∀ c ∈ cats, hasNumConf c = true) :
    sortedByConfidenceDesc cats = Except.ok (sortCatsDesc cats) := by
  simp only [sortedByConfidenceDesc, keyCats_eq cats hobj, sortKeyedDesc_eq cats hnum]
  simp only [List.map_map]
  have hcomp : (Prod.snd ∘ fun c : Json => (jsonGetD c "confidence" Json.null, c)) = id := by
    funext c
    rfl
  rw [hcomp, List.map_id]

theorem dictSet_triple_fresh (row : Row) (c1 c2 c3 : String) (v1 v2 v3 : Cell)
    (h1 : c1 ∉ rowKeys row) (h2 : c2 ∉ rowKeys row) (h3 : c3 ∉ rowKeys row)
    (h12 : c1 ≠ c2) (h13 : c1 ≠ c3) (h23 : c2 ≠ c3) :
    dictSet (dictSet (dictSet row c1 v1) c2 v2) c3 v3 =
      row ++ [(c1, v1), (c2, v2), (c3, v3)] := by
  rw [dictSet_fresh row c1 v1 h1]
  rw [dictSet_append_left row _ c2 v2 h2]
  have e2 : dictSet [(c1, v1)] c2 v2 = [(c1, v1), (c2, v2)] := by
    simp [dictSet, h12]
  rw [e2]
  rw [dictSet_append_left row _ c3 v3 h3]
  have e3 : dictSet [(c1, v1), (c2, v2)] c3 v3 = [(c1, v1), (c2, v2), (c3, v3)] := by
    simp [dictSet, h13, h23]
  rw [e3]

theorem format_sentiment_analysis_shape (row : Row) (response_column : String)
    (mode pfx : String) (eh : ErrorHandlingEnum) (raw : Cell)
    (fs sf : List (String × Json))
    (hrow : rowGet row response_column = some raw)
    (hload : safe_json_loads raw eh = Except.ok (Json.obj fs))
    (hsent : fieldGetD fs "documentSentiment" (Json.obj []) = Json.obj sf)
    (hscore : fieldGetD sf "score" Json.null = Json.null ∨
      ∃ q, fieldGetD sf "score" Json.null = Json.num q)
    (hmag : fieldGetD sf "magnitude" Json.null = Json.null ∨
      ∃ m, fieldGetD sf "magnitude" Json.null = Json.num m) :
    ∃ c1 c2 c3,
      c1 ∉ rowKeys row ∧ c2 ∉ rowKeys row ∧ c3 ∉ rowKeys row ∧
      c1 ≠ c2 ∧ c1 ≠ c3 ∧ c2 ≠ c3 ∧
      format_sentiment_analysis row response_column mode pfx eh =
        Except.ok (row ++ [(c1, score_cell (fieldGetD sf "score" Json.null)),
          (c2, scaled_cell (fieldGetD sf "score" Json.null) mode),
          (c3, magnitude_cell (fieldGetD sf "magnitude" Json.null))]) := by
  have hf1 : generate_unique "score" (rowKeys row) pfx ∉ rowKeys row :=
    generate_unique_fresh _ _ _
  have hf2 : generate_unique "score_scaled" (rowKeys row) pfx ∉ rowKeys row :=
    generate_unique_fresh _ _ _
  have hf3 : generate_unique "magnitude" (rowKeys row) pfx ∉ rowKeys row :=
    generate_unique_fresh _ _ _
  have hne12 : generate_unique "score" (rowKeys row) pfx ≠
      generate_unique "score_scaled" (rowKeys row) pfx :=
    generate_unique_ne _ _ _ _ (by decide) (by decide) (by decide)
  have hne13 : generate_unique "score" (rowKeys row) pfx ≠
      generate_unique "magnitude" (rowKeys row) pfx :=
    generate_unique_ne _ _ _ _ (by decide) (by decide) (by decide)
  have hne23 : generate_unique "score_scaled" (rowKeys row) pfx ≠
      generate_unique "magnitude" (rowKeys row) pfx :=
    generate_unique_ne _ _ _ _ (by decide) (by decide) (by decide)
  refine ⟨generate_unique "score" (rowKeys row) pfx,
    generate_unique "score_scaled" (rowKeys row) pfx,
    generate_unique "magnitude" (rowKeys row) pfx,
    hf1, hf2, hf3, hne12, hne13, hne23, ?_⟩
  rcases hscore with hs | ⟨q, hs⟩ <;> rcases hmag with hm | ⟨m, hm⟩ <;>
    simp only [format_sentiment_analysis, dictGetItem, hrow, hload, pyGet, jsonGetD,
      hsent, hs, hm, pyFloat, score_cell, scaled_cell, magnitude_cell] <;>
    rw [dictSet_triple_fresh row _ _ _ _ _ _ hf1 hf2 hf3 hne12 hne13 hne23]

theorem format_named_entity_recognition_extends (row : Row) (rc : String)
    (ofmt : OutputFormatEnum) (pfx : String) (eh : ErrorHandlingEnum) (row' : Row)
    (h : format_named_entity_recognition row rc ofmt pfx eh = Except.ok row') :
    RowExtends row row' := by
  simp only [format_named_entity_recognition] at h
  cases hg : dictGetItem row rc with
  | error e => rw [hg] at h; cases h
  | ok raw =>
      simp only [hg] at h
      cases hl : safe_json_loads raw eh with
      | error e => rw [hl] at h; cases h
      | ok response =>
          simp only [hl] at h
          cases ofmt with
          | SINGLE_COLUMN =>
              cases hp : pyGet response "entities" (Json.str "") with
              | error e => rw [hp] at h; cases h
              | ok v =>
                  simp only [hp] at h
                  cases h
                  exact RowExtends.dictSet_step row row _ _ (RowExtends.rfl row)
                    (generate_unique_fresh _ _ _)
          | MULTIPLE_COLUMNS =>
              cases hp : pyGet response "entities" (Json.arr []) with
              | error e => rw [hp] at h; cases h
              | ok v =>
                  simp only [hp] at h
                  cases v with
                  | arr entities => exact nerLoop_extends entities pfx ENTITY_TYPES row row' h
                  | null => cases h
                  | bool b => cases h
                  | num q => cases h
                  | str s => cases h
                  | obj fields => cases h

theorem format_sentiment_analysis_extends (row : Row) (rc : String)
    (mode pfx : String) (eh : ErrorHandlingEnum) (row' : Row)
    (h : format_sentiment_analysis row rc mode pfx eh = Except.ok row') :
    RowExtends row row' := by
  have hf1 : generate_unique "score" (rowKeys row) pfx ∉ rowKeys row :=
    generate_unique_fresh _ _ _
  have hf2 : generate_unique "score_scaled" (rowKeys row) pfx ∉ rowKeys row :=
    generate_unique_fresh _ _ _
  have hf3 : generate_unique "magnitude" (rowKeys row) pfx ∉ rowKeys row :=
    generate_unique_fresh _ _ _
  have hstep2 : ∀ v1 v2 : Cell,
      RowExtends row (dictSet (dictSet row (generate_unique "score" (rowKeys row) pfx) v1)
        (generate_unique "score_scaled" (rowKeys row) pfx) v2) :=
    fun v1 v2 => RowExtends.dictSet_step row _ _ _
      (RowExtends.dictSet_step row row _ _ (RowExtends.rfl row) hf1) hf2
  simp only [format_sentiment_analysis] at h
  cases hg : dictGetItem row rc with
  | error e => rw [hg] at h; cases h
  | ok raw =>
      simp only [hg] at h
      cases hl : safe_json_loads raw eh with
      | error e => rw [hl] at h; cases h
      | ok response =>
          simp only [hl] at h
          cases hp : pyGet response "documentSentiment" (Json.obj []) with
          | error e => rw [hp] at h; cases h
          | ok sentiment =>
              simp only [hp] at h
              cases hps : pyGet sentiment "score" Json.null with
              | error e => rw [hps] at h; cases h
              | ok sentiment_score =>
                  simp only [hps] at h
                  cases hpm : pyGet sentiment "magnitude" Json.null with
                  | error e => rw [hpm] at h; cases h
                  | ok magnitude_score =>
                      simp only [hpm] at h
                      have hrest : ∀ row1 : Row, RowExtends row row1 →
                          (match magnitude_score with
                            | Json.null => Except.ok (dictSet row1
                                (generate_unique "magnitude" (rowKeys row) pfx)
                                (Cell.val Json.null))
                            | m =>
                              match pyFloat m with
                              | Except.error err => Except.error err
                              | Except.ok q => Except.ok (dictSet row1
                                  (generate_unique "magnitude" (rowKeys row) pfx)
                                  (Cell.val (Json.num q)))) = Except.ok row' →
                          RowExtends row row' := by
                        intro row1 hext hm
                        cases magnitude_score with
                        | null =>
                            cases hm
                            exact RowExtends.dictSet_step row row1 _ _ hext hf3
                        | num q =>
                            simp only [pyFloat] at hm
                            cases hm
                            exact RowExtends.dictSet_step row row1 _ _ hext hf3
                        | bool b =>
                            simp only [pyFloat] at hm
                            cases hm
                            exact RowExtends.dictSet_step row row1 _ _ hext hf3
                        | str s => simp only [pyFloat] at hm; cases hm
                        | arr l => simp only [pyFloat] at hm; cases hm
                        | obj f => simp only [pyFloat] at hm; cases hm
                      cases sentiment_score with
                      | null => exact hrest _ (hstep2 _ _) h
                      | num q => exact hrest _ (hstep2 _ _) h
                      | bool b => exact hrest _ (hstep2 _ _) h
                      | str s => simp only [pyFloat] at h; cases h
                      | arr l => simp only [pyFloat] at h; cases h
                      | obj f => simp only [pyFloat] at h; cases h

theorem format_text_classification_extends (row : Row) (rc : String)
    (ofmt : OutputFormatEnum) (num_categories : Nat) (pfx : String)
    (eh : ErrorHandlingEnum) (row' : Row)
    (h : format_text_classification row rc ofmt num_categories pfx eh = Except.ok row') :
    RowExtends row row' := by
  simp only [format_text_classification] at h
  cases hg : dictGetItem row rc with
  | error e => rw [hg] at h; cases h
  | ok raw =>
      simp only [hg] at h
      cases hl : safe_json_loads raw eh with
      | error e => rw [hl] at h; cases h
      | ok response =>
          simp only [hl] at h
          cases ofmt with
          | SINGLE_COLUMN =>
              cases hp : pyGet response "categories" (Json.str "") with
              | error e => rw [hp] at h; cases h
              | ok v =>
                  simp only [hp] at h
                  cases h
                  exact RowExtends.dictSet_step row row _ _ (RowExtends.rfl row)
                    (generate_unique_fresh _ _ _)
          | MULTIPLE_COLUMNS =>
              cases hp : pyGet response "categories" (Json.arr []) with
              | error e => rw [hp] at h; cases h
              | ok v =>
                  simp only [hp] at h
                  cases v with
                  | arr cats =>
                      have h2 : (match sortedByConfidenceDesc cats with
                          | Except.error err => Except.error err
                          | Except.ok sorted =>
                              classLoop sorted pfx (List.range num_categories) row) =
                          Except.ok row' := h
                      cases hs : sortedByConfidenceDesc cats with
                      | error e => rw [hs] at h2; cases h2
                      | ok sorted =>
                          simp only [hs] at h2
                          exact classLoop_extends sorted pfx (List.range num_categories) row row' h2
                  | null => cases h
                  | bool b => cases h
                  | num q => cases h
                  | str s => cases h
                  | obj fields => cases h

/-- C1: for every numeric score, `scale_sentiment_score` implements the
per-mode table of the spec — binary splits at 0, ternary at -0.33 and
0.33, quinary in five buckets delimited by -0.66, -0.33, 0.33, 0.66 with
every boundary value in the upper branch because every comparison is
strict, rescale_zero_to_one returns (score+1)/2, and any other mode
passes the score through as a float — and the four stated boundary
examples hold. -/
theorem scale_sentiment_score_matches_spec_table :
    (∀ (score : ℚ) (mode : String),
        scale_sentiment_score score mode = spec_scale_table score mode) ∧
    scale_sentiment_score (-0.33) "ternary" = ScaleResult.label "neutral" ∧
    scale_sentiment_score 0.34 "ternary" = ScaleResult.label "positive" ∧
    scale_sentiment_score (-0.34) "ternary" = ScaleResult.label "negative" ∧
    scale_sentiment_score 0 "rescale_zero_to_one" = ScaleResult.score 0.5 := by
  refine ⟨?_, ?_, ?_, ?_, ?_⟩
  · intro score mode
    unfold scale_sentiment_score spec_scale_table
    split_ifs <;> first | rfl | (exfalso; simp_all)
  · simp [scale_sentiment_score]
    norm_num
  · simp [scale_sentiment_score]
    norm_num
  · simp [scale_sentiment_score]
    norm_num
  · simp [scale_sentiment_score]
    norm_num

/-- C6: an invalid-JSON service-account key makes `get_client` raise a
ValueError carrying the descriptive message, and a missing key falls back
to ambient default credentials. -/
theorem get_client_spec :
    get_client (some none) =
      Except.error (PyErr.valueError "GCP service account key is not valid JSON.") ∧
    get_client none = Except.ok Client.defaultClient :=
  ⟨rfl, rfl⟩

/-- C7: on every score in the valid range, the categorical modes return a
label from their fixed closed label set and rescale_zero_to_one returns a
number in the unit interval. -/
theorem scale_sentiment_score_range (s : ℚ) (h1 : -1 ≤ s) (h2 : s ≤ 1) :
    scale_sentiment_score s "binary" ∈
      [ScaleResult.label "negative", ScaleResult.label "positive"] ∧
    scale_sentiment_score s "ternary" ∈
      [ScaleResult.label "negative", ScaleResult.label "neutral",
       ScaleResult.label "positive"] ∧
    scale_sentiment_score s "quinary" ∈
      [ScaleResult.label "highly negative", ScaleResult.label "negative",
       ScaleResult.label "neutral", ScaleResult.label "positive",
       ScaleResult.label "highly positive"] ∧
    ∃ q, scale_sentiment_score s "rescale_zero_to_one" = ScaleResult.score q ∧
      0 ≤ q ∧ q ≤ 1 := by
  refine ⟨?_, ?_, ?_, (s + 1) / 2, rfl, by linarith, by linarith⟩
  · unfold scale_sentiment_score
    split_ifs <;> simp_all
  · unfold scale_sentiment_score
    split_ifs <;> simp_all
  · unfold scale_sentiment_score
    split_ifs <;> simp_all

theorem scale_sentiment_score_range_witness :
    (-1 ≤ (0 : ℚ) ∧ (0 : ℚ) ≤ 1) ∧
    (scale_sentiment_score 0 "binary" ∈
        [ScaleResult.label "negative", ScaleResult.label "positive"] ∧
      scale_sentiment_score 0 "ternary" ∈
        [ScaleResult.label "negative", ScaleResult.label "neutral",
         ScaleResult.label "positive"] ∧
      scale_sentiment_score 0 "quinary" ∈
        [ScaleResult.label "highly negative", ScaleResult.label "negative",
         ScaleResult.label "neutral", ScaleResult.label "positive",
         ScaleResult.label "highly positive"] ∧
      ∃ q, scale_sentiment_score 0 "rescale_zero_to_one" = ScaleResult.score q ∧
        0 ≤ q ∧ q ≤ 1) :=
  ⟨⟨by norm_num, by norm_num⟩,
    scale_sentiment_score_range 0 (by norm_num) (by norm_num)⟩

/-- C9: on a valid-JSON response whose categories list has one category
without a confidence field (sort key None) and another with a numeric
confidence, `format_text_classification` with MULTIPLE_COLUMNS raises a
comparison TypeError during the descending sort instead of substituting a
null sentinel. -/
theorem format_text_classification_missing_confidence_raises :
    format_text_classification
      [("response", Cell.raw (some (Json.obj [("categories", Json.arr
        [Json.obj [("name", Json.str "A")],
         Json.obj [("name", Json.str "B"), ("confidence", Json.num 1)]])])))]
      "response" OutputFormatEnum.MULTIPLE_COLUMNS 3 "classification_api"
      ErrorHandlingEnum.LOG =
    Except.error (PyErr.typeError "unorderable types") := rfl

/-- C2: on a row whose response column decodes to an entities list (of
entity objects), MULTIPLE_COLUMNS entity formatting appends one column per
entity-type enumeration value, in enumeration order, each holding the
subsequence (in input order) of the name values of the entities whose
type equals that enumeration name, and the empty-string sentinel when no
entity matches; the appended keys avoid every pre-existing key. -/
theorem format_named_entity_recognition_multiple_columns (row : Row)
    (response_column pfx : String) (eh : ErrorHandlingEnum) (raw : Option Json)
    (fs : List (String × Json)) (entities : List Json)
    (hrow : rowGet row response_column = some (Cell.raw raw))
    (hload : safe_json_loads (Cell.raw raw) eh = Except.ok (Json.obj fs))
    (hents : fieldGetD fs "entities" (Json.arr []) = Json.arr entities)
    (hobj : ∀ e ∈ entities, e.isObj = true) :
    ∃ ext,
      format_named_entity_recognition row response_column
          OutputFormatEnum.MULTIPLE_COLUMNS pfx eh = Except.ok (row ++ ext) ∧
      List.map Prod.snd ext = ENTITY_TYPES.map (entity_type_cell entities) ∧
      ∀ k, k ∈ rowKeys ext → k ∉ rowKeys row := by
  obtain ⟨ext, hloop, hsnd, hkeys⟩ := nerLoop_shape entities pfx hobj ENTITY_TYPES row
  refine ⟨ext, ?_, hsnd, hkeys⟩
  simp only [format_named_entity_recognition, dictGetItem, hrow, hload, pyGet, hents]
  exact hloop

theorem format_named_entity_recognition_multiple_columns_witness :
    (rowGet [("response", Cell.raw (some (Json.obj [("entities", Json.arr
        [Json.obj [("name", Json.str "A"), ("type", Json.str "PERSON")]])])))]
      "response" = some (Cell.raw (some (Json.obj [("entities", Json.arr
        [Json.obj [("name", Json.str "A"), ("type", Json.str "PERSON")]])])))) ∧
    ∃ ext,
      format_named_entity_recognition
          [("response", Cell.raw (some (Json.obj [("entities", Json.arr
            [Json.obj [("name", Json.str "A"), ("type", Json.str "PERSON")]])])))]
          "response" OutputFormatEnum.MULTIPLE_COLUMNS "ner_api" ErrorHandlingEnum.LOG =
        Except.ok ([("response", Cell.raw (some (Json.obj [("entities", Json.arr
          [Json.obj [("name", Json.str "A"), ("type", Json.str "PERSON")]])])))] ++ ext) ∧
      List.map Prod.snd ext =
        [Cell.val (Json.str ""), Cell.val (Json.arr [Json.str "A"]),
         Cell.val (Json.str ""), Cell.val (Json.str ""), Cell.val (Json.str ""),
         Cell.val (Json.str ""), Cell.val (Json.str ""), Cell.val (Json.str ""),
         Cell.val (Json.str ""), Cell.val (Json.str ""), Cell.val (Json.str ""),
         Cell.val (Json.str ""), Cell.val (Json.str "")] ∧
      ∀ k, k ∈ rowKeys ext →
        k ∉ rowKeys [("response", Cell.raw (some (Json.obj [("entities", Json.arr
          [Json.obj [("name", Json.str "A"), ("type", Json.str "PERSON")]])])))] := by
  refine ⟨rfl, ?_⟩
  obtain ⟨ext, h1, h2, h3⟩ :=
    format_named_entity_recognition_multiple_columns
      [("response", Cell.raw (some (Json.obj [("entities", Json.arr
        [Json.obj [("name", Json.str "A"), ("type", Json.str "PERSON")]])])))]
      "response" "ner_api" ErrorHandlingEnum.LOG
      (some (Json.obj [("entities", Json.arr
        [Json.obj [("name", Json.str "A"), ("type", Json.str "PERSON")]])]))
      [("entities", Json.arr [Json.obj [("name", Json.str "A"), ("type", Json.str "PERSON")]])]
      [Json.obj [("name", Json.str "A"), ("type", Json.str "PERSON")]]
      rfl rfl rfl (by decide)
  refine ⟨ext, h1, ?_, h3⟩
  rw [h2]
  rfl

theorem flatMap_pair_length (s : List Json) (ns : List Nat) :
    (ns.flatMap (fun n => [name_cell s n, conf_cell s n])).length = 2 * ns.length := by
  induction ns with
  | nil => rfl
  | cons n rest ih =>
      simp only [List.flatMap_cons, List.length_append, List.length_cons, ih,
        List.length_nil, List.length_cons]
      omega

/-- C3: on a row whose response column decodes to a list of category
objects with numeric confidences, MULTIPLE_COLUMNS classification
formatting appends exactly num_categories pairs of cells (name,
confidence) taken in order from the categories sorted descending by
confidence — a sort that is a permutation of the input, pairwise
descending, and stable in the sense that the categories of each fixed
confidence keep their input order — with the pairs past the end of the
list filled by the sentinels (empty string, null), and the appended keys
avoid every pre-existing key. -/
theorem format_text_classification_multiple_columns (row : Row)
    (response_column pfx : String) (eh : ErrorHandlingEnum) (num_categories : Nat)
    (raw : Option Json) (fs : List (String × Json)) (cats : List Json)
    (hrow : rowGet row response_column = some (Cell.raw raw))
    (hload : safe_json_loads (Cell.raw raw) eh = Except.ok (Json.obj fs))
    (hcats : fieldGetD fs "categories" (Json.arr []) = Json.arr cats)
    (hobj : ∀ c ∈ cats, c.isObj = true)
    (hnum : ∀ c ∈ cats, hasNumConf c = true) :
    ∃ ext,
      format_text_classification row response_column
          OutputFormatEnum.MULTIPLE_COLUMNS num_categories pfx eh =
        Except.ok (row ++ ext) ∧
      List.map Prod.snd ext = (List.range num_categories).flatMap
        (fun n => [name_cell (sortCatsDesc cats) n, conf_cell (sortCatsDesc cats) n]) ∧
      (∀ k, k ∈ rowKeys ext → k ∉ rowKeys row) ∧
      ext.length = 2 * num_categories ∧
      List.Perm (sortCatsDesc cats) cats ∧
      List.Pairwise (fun a b => confQ b ≤ confQ a) (sortCatsDesc cats) ∧
      ∀ q : ℚ, (sortCatsDesc cats).filter (fun c => decide (confQ c = q)) =
        cats.filter (fun c => decide (confQ c = q)) := by
  have hobj2 : ∀ c ∈ sortCatsDesc cats, c.isObj = true :=
    fun c hc => hobj c (mem_sortCatsDesc cats c hc)
  obtain ⟨ext, hloop, hsnd, hkeys⟩ :=
    classLoop_shape (sortCatsDesc cats) pfx hobj2 (List.range num_categories) row
  refine ⟨ext, ?_, hsnd, hkeys, ?_, sortCatsDesc_perm cats, sortCatsDesc_pairwise cats,
    fun q => sortCatsDesc_filter cats q⟩
  · simp only [format_text_classification, dictGetItem, hrow, hload, pyGet, hcats,
      sortedByConfidenceDesc_eq cats hobj hnum]
    exact hloop
  · have hlen := congrArg List.length hsnd
    rw [List.length_map, flatMap_pair_length, List.length_range] at hlen
    exact hlen

theorem format_text_classification_multiple_columns_witness :
    (rowGet [("response", Cell.raw (some (Json.obj [("categories", Json.arr
        [Json.obj [("name", Json.str "cat1"), ("confidence", Json.num (mkRat 9 10))],
         Json.obj [("name", Json.str "cat2"), ("confidence", Json.num (mkRat 1 2))]])])))]
      "response" = some (Cell.raw (some (Json.obj [("categories", Json.arr
        [Json.obj [("name", Json.str "cat1"), ("confidence", Json.num (mkRat 9 10))],
         Json.obj [("name", Json.str "cat2"), ("confidence", Json.num (mkRat 1 2))]])])))) ∧
    ∃ ext,
      format_text_classification
          [("response", Cell.raw (some (Json.obj [("categories", Json.arr
            [Json.obj [("name", Json.str "cat1"), ("confidence", Json.num (mkRat 9 10))],
             Json.obj [("name", Json.str "cat2"), ("confidence", Json.num (mkRat 1 2))]])])))]
          "response" OutputFormatEnum.MULTIPLE_COLUMNS 3 "classification_api"
          ErrorHandlingEnum.LOG =
        Except.ok ([("response", Cell.raw (some (Json.obj [("categories", Json.arr
          [Json.obj [("name", Json.str "cat1"), ("confidence", Json.num (mkRat 9 10))],
           Json.obj [("name", Json.str "cat2"), ("confidence", Json.num (mkRat 1 2))]])])))]
          ++ ext) ∧
      List.map Prod.snd ext =
        [Cell.val (Json.str "cat1"), Cell.val (Json.num (mkRat 9 10)),
         Cell.val (Json.str "cat2"), Cell.val (Json.num (mkRat 1 2)),
         Cell.val (Json.str ""), Cell.val Json.null] ∧
      ext.length = 2 * 3 := by
  refine ⟨rfl, ?_⟩
  obtain ⟨ext, h1, h2, h3, h4, h5, h6, h7⟩ :=
    format_text_classification_multiple_columns
      [("response", Cell.raw (some (Json.obj [("categories", Json.arr
        [Json.obj [("name", Json.str "cat1"), ("confidence", Json.num (mkRat 9 10))],
         Json.obj [("name", Json.str "cat2"), ("confidence", Json.num (mkRat 1 2))]])])))]
      "response" "classification_api" ErrorHandlingEnum.LOG 3
      (some (Json.obj [("categories", Json.arr
        [Json.obj [("name", Json.str "cat1"), ("confidence", Json.num (mkRat 9 10))],
         Json.obj [("name", Json.str "cat2"), ("confidence", Json.num (mkRat 1 2))]])]))
      [("categories", Json.arr
        [Json.obj [("name", Json.str "cat1"), ("confidence", Json.num (mkRat 9 10))],
         Json.obj [("name", Json.str "cat2"), ("confidence", Json.num (mkRat 1 2))]])]
      [Json.obj [("name", Json.str "cat1"), ("confidence", Json.num (mkRat 9 10))],
       Json.obj [("name", Json.str "cat2"), ("confidence", Json.num (mkRat 1 2))]]
      rfl rfl rfl (by decide) (by decide)
  refine ⟨ext, h1, ?_, h4⟩
  rw [h2]
  rfl

theorem ScaleResult_toJson_ne_null (r : ScaleResult) : r.toJson ≠ Json.null := by
  cases r <;> simp [ScaleResult.toJson]

/-- C4: when the decoded response lacks the score or the magnitude field
(including when the whole documentSentiment object is absent, in which
case the empty default object lacks both), `format_sentiment_analysis`
does not raise: it appends the three columns, with the score and
scaled-score columns holding the null sentinel when the score is absent
and the magnitude column holding the null sentinel when the magnitude is
absent. -/
theorem format_sentiment_analysis_missing_fields (row : Row)
    (response_column mode pfx : String) (eh : ErrorHandlingEnum) (raw : Option Json)
    (fs sf : List (String × Json))
    (hrow : rowGet row response_column = some (Cell.raw raw))
    (hload : safe_json_loads (Cell.raw raw) eh = Except.ok (Json.obj fs))
    (hsent : fieldGetD fs "documentSentiment" (Json.obj []) = Json.obj sf)
    (hscore : fieldGetD sf "score" Json.null = Json.null ∨
      ∃ q, fieldGetD sf "score" Json.null = Json.num q)
    (hmag : fieldGetD sf "magnitude" Json.null = Json.null ∨
      ∃ m, fieldGetD sf "magnitude" Json.null = Json.num m)
    (habsent : fieldGetD sf "score" Json.null = Json.null ∨
      fieldGetD sf "magnitude" Json.null = Json.null) :
    ∃ c1 c2 c3,
      format_sentiment_analysis row response_column mode pfx eh =
        Except.ok (row ++ [(c1, score_cell (fieldGetD sf "score" Json.null)),
          (c2, scaled_cell (fieldGetD sf "score" Json.null) mode),
          (c3, magnitude_cell (fieldGetD sf "magnitude" Json.null))]) ∧
      (fieldGetD sf "score" Json.null = Json.null →
        score_cell (fieldGetD sf "score" Json.null) = Cell.val Json.null ∧
        scaled_cell (fieldGetD sf "score" Json.null) mode = Cell.val Json.null) ∧
      (fieldGetD sf "magnitude" Json.null = Json.null →
        magnitude_cell (fieldGetD sf "magnitude" Json.null) = Cell.val Json.null) := by
  obtain ⟨c1, c2, c3, -, -, -, -, -, -, heq⟩ :=
    format_sentiment_analysis_shape row response_column mode pfx eh (Cell.raw raw)
      fs sf hrow hload hsent hscore hmag
  refine ⟨c1, c2, c3, heq, ?_, ?_⟩
  · intro hs
    rw [hs]
    exact ⟨rfl, rfl⟩
  · intro hm
    rw [hm]
    simp [magnitude_cell]

theorem format_sentiment_analysis_missing_fields_witness :
    (rowGet [("r", Cell.raw (some (Json.obj [("documentSentiment", Json.obj [])])))] "r" =
      some (Cell.raw (some (Json.obj [("documentSentiment", Json.obj [])])))) ∧
    ∃ c1 c2 c3,
      format_sentiment_analysis
          [("r", Cell.raw (some (Json.obj [("documentSentiment", Json.obj [])])))]
          "r" "ternary" "sentiment_api" ErrorHandlingEnum.LOG =
        Except.ok ([("r", Cell.raw (some (Json.obj [("documentSentiment", Json.obj [])])))]
          ++ [(c1, Cell.val Json.null), (c2, Cell.val Json.null),
              (c3, Cell.val Json.null)]) := by
  refine ⟨rfl, ?_⟩
  obtain ⟨c1, c2, c3, heq, -, -⟩ :=
    format_sentiment_analysis_missing_fields
      [("r", Cell.raw (some (Json.obj [("documentSentiment", Json.obj [])])))]
      "r" "ternary" "sentiment_api" ErrorHandlingEnum.LOG
      (some (Json.obj [("documentSentiment", Json.obj [])]))
      [("documentSentiment", Json.obj [])] []
      rfl rfl rfl (Or.inl rfl) (Or.inl rfl) (Or.inl rfl)
  exact ⟨c1, c2, c3, heq⟩

/-- C10: after a successful sentiment-formatting run, the scaled-score
cell is the null sentinel exactly when the score cell is, which happens
exactly when the score field was absent from the decoded sentiment object
— independently of the magnitude — and when the score holds a number the
scaled cell always holds `scale_sentiment_score` of that number. -/
theorem format_sentiment_analysis_scaled_iff (row : Row)
    (response_column mode pfx : String) (eh : ErrorHandlingEnum) (raw : Option Json)
    (fs sf : List (String × Json))
    (hrow : rowGet row response_column = some (Cell.raw raw))
    (hload : safe_json_loads (Cell.raw raw) eh = Except.ok (Json.obj fs))
    (hsent : fieldGetD fs "documentSentiment" (Json.obj []) = Json.obj sf)
    (hscore : fieldGetD sf "score" Json.null = Json.null ∨
      ∃ q, fieldGetD sf "score" Json.null = Json.num q)
    (hmag : fieldGetD sf "magnitude" Json.null = Json.null ∨
      ∃ m, fieldGetD sf "magnitude" Json.null = Json.num m) :
    ∃ c1 c2 c3 v1 v2 v3,
      format_sentiment_analysis row response_column mode pfx eh =
        Except.ok (row ++ [(c1, v1), (c2, v2), (c3, v3)]) ∧
      (v2 = Cell.val Json.null ↔ v1 = Cell.val Json.null) ∧
      (v1 = Cell.val Json.null ↔ fieldGetD sf "score" Json.null = Json.null) ∧
      (∀ q : ℚ, fieldGetD sf "score" Json.null = Json.num q →
        v1 = Cell.val (Json.num q) ∧
        v2 = Cell.val (scale_sentiment_score q mode).toJson) := by
  obtain ⟨c1, c2, c3, -, -, -, -, -, -, heq⟩ :=
    format_sentiment_analysis_shape row response_column mode pfx eh (Cell.raw raw)
      fs sf hrow hload hsent hscore hmag
  rcases hscore with hs | ⟨q, hs⟩
  · refine ⟨c1, c2, c3, _, _, _, heq, ?_, ?_, ?_⟩
    · rw [hs]
      simp [score_cell, scaled_cell]
    · rw [hs]
      simp [score_cell]
    · intro q' hq'
      rw [hs] at hq'
      cases hq'
  · refine ⟨c1, c2, c3, _, _, _, heq, ?_, ?_, ?_⟩
    · rw [hs]
      simp only [score_cell, scaled_cell]
      constructor
      · intro hcontra
        exact absurd (Cell.val.injEq _ _ ▸ congrArg id hcontra) (by
          intro h2
          exact ScaleResult_toJson_ne_null (scale_sentiment_score q mode) (by
            have := congrArg (fun c => match c with | Cell.val j => j | Cell.raw r => Json.null) hcontra
            simpa using this))
      · intro hcontra
        have := congrArg (fun c => match c with | Cell.val j => j | Cell.raw r => Json.null) hcontra
        simp at this
    · rw [hs]
      simp [score_cell]
    · intro q' hq'
      rw [hs] at hq'
      injection hq' with h
      subst h
      rw [hs]
      exact ⟨rfl, rfl⟩

theorem format_sentiment_analysis_scaled_iff_witness :
    (rowGet [("r", Cell.raw (some (Json.obj [("documentSentiment",
        Json.obj [("score", Json.num (mkRat 1 2))])])))] "r" =
      some (Cell.raw (some (Json.obj [("documentSentiment",
        Json.obj [("score", Json.num (mkRat 1 2))])])))) ∧
    ∃ c1 c2 c3 v1 v2 v3,
      format_sentiment_analysis
          [("r", Cell.raw (some (Json.obj [("documentSentiment",
            Json.obj [("score", Json.num (mkRat 1 2))])])))]
          "r" "ternary" "sentiment_api" ErrorHandlingEnum.LOG =
        Except.ok ([("r", Cell.raw (some (Json.obj [("documentSentiment",
          Json.obj [("score", Json.num (mkRat 1 2))])])))] ++ [(c1, v1), (c2, v2), (c3, v3)]) ∧
      (v2 = Cell.val Json.null ↔ v1 = Cell.val Json.null) ∧
      (v1 = Cell.val Json.null ↔ fieldGetD [("score", Json.num (mkRat 1 2))] "score" Json.null
        = Json.null) ∧
      (∀ q : ℚ, fieldGetD [("score", Json.num (mkRat 1 2))] "score" Json.null = Json.num q →
        v1 = Cell.val (Json.num q) ∧
        v2 = Cell.val (scale_sentiment_score q "ternary").toJson) :=
  ⟨rfl,
    format_sentiment_analysis_scaled_iff
      [("r", Cell.raw (some (Json.obj [("documentSentiment",
        Json.obj [("score", Json.num (mkRat 1 2))])])))]
      "r" "ternary" "sentiment_api" ErrorHandlingEnum.LOG
      (some (Json.obj [("documentSentiment", Json.obj [("score", Json.num (mkRat 1 2))])]))
      [("documentSentiment", Json.obj [("score", Json.num (mkRat 1 2))])]
      [("score", Json.num (mkRat 1 2))]
      rfl rfl rfl (Or.inr ⟨mkRat 1 2, rfl⟩) (Or.inl rfl)⟩

/-- C5: a response cell holding a string that is not valid JSON, under
the LOG policy, makes each of the three formatters (MULTIPLE_COLUMNS for
the entity and classification formatters) return the row augmented only
with sentinel values — empty strings for entity-type and category-name
columns, nulls for the score, scaled-score, magnitude and confidence
columns — and raise no error. -/
theorem formatters_malformed_json_log (row : Row) (response_column pfx mode : String)
    (num_categories : Nat)
    (hrow : rowGet row response_column = some (Cell.raw none)) :
    (∃ ext, format_named_entity_recognition row response_column
        OutputFormatEnum.MULTIPLE_COLUMNS pfx ErrorHandlingEnum.LOG =
          Except.ok (row ++ ext) ∧
      List.map Prod.snd ext = ENTITY_TYPES.map (fun _ => Cell.val (Json.str "")) ∧
      ∀ k, k ∈ rowKeys ext → k ∉ rowKeys row) ∧
    (∃ c1 c2 c3, format_sentiment_analysis row response_column mode pfx
        ErrorHandlingEnum.LOG =
      Except.ok (row ++ [(c1, Cell.val Json.null), (c2, Cell.val Json.null),
        (c3, Cell.val Json.null)])) ∧
    (∃ ext, format_text_classification row response_column
        OutputFormatEnum.MULTIPLE_COLUMNS num_categories pfx ErrorHandlingEnum.LOG =
          Except.ok (row ++ ext) ∧
      List.map Prod.snd ext = (List.range num_categories).flatMap
        (fun _ => [Cell.val (Json.str ""), Cell.val Json.null]) ∧
      ∀ k, k ∈ rowKeys ext → k ∉ rowKeys row) := by
  refine ⟨?_, ?_, ?_⟩
  · obtain ⟨ext, hloop, hsnd, hkeys⟩ := nerLoop_shape [] pfx (by simp) ENTITY_TYPES row
    refine ⟨ext, ?_, ?_, hkeys⟩
    · simp only [format_named_entity_recognition, dictGetItem, hrow, safe_json_loads,
        pyGet, fieldGetD]
      exact hloop
    · rw [hsnd]
      rfl
  · obtain ⟨c1, c2, c3, -, -, -, -, -, -, heq⟩ :=
      format_sentiment_analysis_shape row response_column mode pfx ErrorHandlingEnum.LOG
        (Cell.raw none) [] [] hrow rfl rfl (Or.inl rfl) (Or.inl rfl)
    exact ⟨c1, c2, c3, heq⟩
  · obtain ⟨ext, hloop, hsnd, hkeys⟩ :=
      classLoop_shape [] pfx (by simp) (List.range num_categories) row
    refine ⟨ext, ?_, ?_, hkeys⟩
    · simp only [format_text_classification, dictGetItem, hrow, safe_json_loads,
        pyGet, fieldGetD, sortedByConfidenceDesc, keyCats, sortKeyedDesc]
      exact hloop
    · rw [hsnd]
      have hfun : (fun n => [name_cell ([] : List Json) n, conf_cell ([] : List Json) n]) =
          (fun _ : Nat => [Cell.val (Json.str ""), Cell.val Json.null]) := by
        funext n
        rw [name_cell, dif_neg (by simp), conf_cell, dif_neg (by simp)]
      rw [hfun]

theorem formatters_malformed_json_log_witness :
    (rowGet [("response", Cell.raw none)] "response" = some (Cell.raw none)) ∧
    ((∃ ext, format_named_entity_recognition [("response", Cell.raw none)] "response"
        OutputFormatEnum.MULTIPLE_COLUMNS "ner_api" ErrorHandlingEnum.LOG =
          Except.ok ([("response", Cell.raw none)] ++ ext) ∧
      List.map Prod.snd ext = ENTITY_TYPES.map (fun _ => Cell.val (Json.str "")) ∧
      ∀ k, k ∈ rowKeys ext → k ∉ rowKeys [("response", Cell.raw none)]) ∧
    (∃ c1 c2 c3, format_sentiment_analysis [("response", Cell.raw none)] "response"
        "ternary" "ner_api" ErrorHandlingEnum.LOG =
      Except.ok ([("response", Cell.raw none)] ++ [(c1, Cell.val Json.null),
        (c2, Cell.val Json.null), (c3, Cell.val Json.null)])) ∧
    (∃ ext, format_text_classification [("response", Cell.raw none)] "response"
        OutputFormatEnum.MULTIPLE_COLUMNS 3 "ner_api" ErrorHandlingEnum.LOG =
          Except.ok ([("response", Cell.raw none)] ++ ext) ∧
      List.map Prod.snd ext = (List.range 3).flatMap
        (fun _ => [Cell.val (Json.str ""), Cell.val Json.null]) ∧
      ∀ k, k ∈ rowKeys ext → k ∉ rowKeys [("response", Cell.raw none)])) :=
  ⟨rfl, formatters_malformed_json_log [("response", Cell.raw none)] "response"
    "ner_api" "ternary" 3 rfl⟩

/-- C8: each formatter, when it returns a row, only adds new keys to it —
the output is the input row with appended bindings whose keys avoid every
pre-existing key (uniqueness coming from the generate_unique
collaborator), so every key present before is still present afterwards
with its original value and no key is deleted. -/
theorem formatters_only_add_new_keys :
    (∀ (row : Row) (rc : String) (ofmt : OutputFormatEnum) (pfx : String)
        (eh : ErrorHandlingEnum) (row' : Row),
      format_named_entity_recognition row rc ofmt pfx eh = Except.ok row' →
        RowExtends row row' ∧ ∀ k v, rowGet row k = some v → rowGet row' k = some v) ∧
    (∀ (row : Row) (rc mode pfx : String) (eh : ErrorHandlingEnum) (row' : Row),
      format_sentiment_analysis row rc mode pfx eh = Except.ok row' →
        RowExtends row row' ∧ ∀ k v, rowGet row k = some v → rowGet row' k = some v) ∧
    (∀ (row : Row) (rc : String) (ofmt : OutputFormatEnum) (num_categories : Nat)
        (pfx : String) (eh : ErrorHandlingEnum) (row' : Row),
      format_text_classification row rc ofmt num_categories pfx eh = Except.ok row' →
        RowExtends row row' ∧ ∀ k v, rowGet row k = some v → rowGet row' k = some v) := by
  refine ⟨?_, ?_, ?_⟩
  · intro row rc ofmt pfx eh row' h
    have hext := format_named_entity_recognition_extends row rc ofmt pfx eh row' h
    exact ⟨hext, fun k v hv => RowExtends.rowGet_preserved row row' k v hext hv⟩
  · intro row rc mode pfx eh row' h
    have hext := format_sentiment_analysis_extends row rc mode pfx eh row' h
    exact ⟨hext, fun k v hv => RowExtends.rowGet_preserved row row' k v hext hv⟩
  · intro row rc ofmt num_categories pfx eh row' h
    have hext := format_text_classification_extends row rc ofmt num_categories pfx eh row' h
    exact ⟨hext, fun k v hv => RowExtends.rowGet_preserved row row' k v hext hv⟩

theorem formatters_only_add_new_keys_witness :
    (format_sentiment_analysis [("r", Cell.raw none)] "r" "ternary" "sentiment_api"
        ErrorHandlingEnum.LOG =
      Except.ok [("r", Cell.raw none), ("sentiment_api_score", Cell.val Json.null),
        ("sentiment_api_score_scaled", Cell.val Json.null),
        ("sentiment_api_magnitude", Cell.val Json.null)]) ∧
    (RowExtends [("r", Cell.raw none)]
        [("r", Cell.raw none), ("sentiment_api_score", Cell.val Json.null),
          ("sentiment_api_score_scaled", Cell.val Json.null),
          ("sentiment_api_magnitude", Cell.val Json.null)] ∧
      ∀ k v, rowGet [("r", Cell.raw none)] k = some v →
        rowGet [("r", Cell.raw none), ("sentiment_api_score", Cell.val Json.null),
          ("sentiment_api_score_scaled", Cell.val Json.null),
          ("sentiment_api_magnitude", Cell.val Json.null)] k = some v) :=
  ⟨rfl, formatters_only_add_new_keys.2.1 [("r", Cell.raw none)] "r" "ternary"
    "sentiment_api" ErrorHandlingEnum.LOG
    [("r", Cell.raw none), ("sentiment_api_score", Cell.val Json.null),
      ("sentiment_api_score_scaled", Cell.val Json.null),
      ("sentiment_api_magnitude", Cell.val Json.null)] rfl⟩
